import Mathlib

/-!
# Verification of the tradai live-sports correlation engine

A shallow embedding of the algorithmic core of the repository
(`src/services/sofascore.py`, `src/services/polymarket.py`,
`src/services/sports.py`, `src/services/tracker.py`) together with proofs
and refutations of the specification claims.

Modelling conventions:
* Python strings are Lean `String`s; the per-character operations
  (`str.lower`, `str.replace`, `re.sub` with the concrete patterns used by
  the source) are implemented on `List Char` and wrapped.  `str.lower` is
  modelled per character with `Char.toLower` (ASCII case mapping); every
  concrete input used in a theorem below is ASCII.
* Python `None` becomes `Option.none`; a raised exception becomes
  `Except.error`.
* Python floats that carry money/score weights (`1.5`, `1.2`, prices)
  are modelled as exact rationals; timestamps are modelled as integer
  seconds, and `int(x / 60)` (truncation toward zero) as `Int.tdiv`.
* Network calls (`requests`) are modelled as oracle functions passed in as
  parameters; JSON fields that `parse_json_field` decodes are modelled as
  the already-decoded lists.
-/

namespace Tradai

/-- The apostrophe character (codepoint 39). -/
def apos : Char := Char.ofNat 39

/-- Python `str.isspace`-style whitespace set used by `str.strip` /
`str.split()` (space, tab, LF, CR, VT, FF). -/
def pyIsSpace (c : Char) : Bool :=
  c = ' ' || c = Char.ofNat 9 || c = Char.ofNat 10 || c = Char.ofNat 13 ||
  c = Char.ofNat 11 || c = Char.ofNat 12

/-- A regex word character (`\w`): alphanumeric or underscore (ASCII). -/
def isWordChar (c : Char) : Bool := c.isAlphanum || c = '_'

/-- Python substring test `pat in s` on character lists. -/
def listContains (pat : List Char) : List Char → Bool
  | [] => pat.isEmpty
  | c :: t => pat.isPrefixOf (c :: t) || listContains pat t

/-- Python substring test `pat in s` on strings. -/
def strContains (s pat : String) : Bool := listContains pat.data s.data

/-- Python `s.lower()` (per-character ASCII case map). -/
def lowerStr (s : String) : String := (s.data.map Char.toLower).asString

/-- Length of the longest prefix of `l` whose characters satisfy `p`. -/
def countWhile (p : Char → Bool) : List Char → Nat
  | [] => 0
  | c :: t => if p c then countWhile p t + 1 else 0

/-- Scanner for Python `s.replace(old, new)`.  The first argument is a
skip counter: after a match the remaining `old.length - 1` matched
characters are consumed without being rescanned, so occurrences are
leftmost and non-overlapping (structural recursion on the string). -/
def replaceAux (old new : List Char) : Nat → List Char → List Char
  | _, [] => []
  | skip + 1, _ :: t => replaceAux old new skip t
  | 0, c :: t =>
    if old.isPrefixOf (c :: t) && !old.isEmpty then
      new ++ replaceAux old new (old.length - 1) t
    else
      c :: replaceAux old new 0 t

/-- Python `s.replace(old, new)`: replace every leftmost non-overlapping
occurrence of `old` (the source never calls it with an empty `old`). -/
def replaceList (old new : List Char) (l : List Char) : List Char :=
  replaceAux old new 0 l

/-- Python `s.split(sep, 1)`: split on the first occurrence of `sep`
(case-sensitive); `none` when `sep` does not occur. -/
def splitOnceList (sep : List Char) : List Char → Option (List Char × List Char)
  | [] => none
  | c :: t =>
    if sep.isPrefixOf (c :: t) && !sep.isEmpty then
      some ([], (c :: t).drop sep.length)
    else
      match splitOnceList sep t with
      | some (a, b) => some (c :: a, b)
      | none => none

/-- Python `s.strip()`: drop whitespace from both ends. -/
def stripList (l : List Char) : List Char :=
  ((l.dropWhile pyIsSpace).reverse.dropWhile pyIsSpace).reverse

/-- Python `s.split()` (no argument): whitespace-run tokenisation that
drops empty tokens. -/
def splitWsAux (acc : List Char) : List Char → List (List Char)
  | [] => if acc.isEmpty then [] else [acc.reverse]
  | c :: t =>
    if pyIsSpace c then
      if acc.isEmpty then splitWsAux [] t else acc.reverse :: splitWsAux [] t
    else
      splitWsAux (c :: acc) t

/-- Join tokens with single spaces (Python `' '.join(tokens)`). -/
def joinSpaceList : List (List Char) → List Char
  | [] => []
  | [w] => w
  | w :: ws => w ++ ' ' :: joinSpaceList ws

/-- Python `' '.join(s.split())`: collapse whitespace runs. -/
def collapseWsList (l : List Char) : List Char := joinSpaceList (splitWsAux [] l)

/-- Scanner for `re.sub(r"'\d+", '', s)`; the skip counter consumes the
matched digit run without rescanning it. -/
def subAposDigitsAux : Nat → List Char → List Char
  | _, [] => []
  | skip + 1, _ :: t => subAposDigitsAux skip t
  | 0, c :: t =>
    if c = apos && (match t with | d :: _ => d.isDigit | [] => false) then
      subAposDigitsAux (countWhile Char.isDigit t) t
    else
      c :: subAposDigitsAux 0 t

/-- `re.sub(r"'\d+", '', s)`: delete every apostrophe followed by a
maximal non-empty digit run (leftmost, non-overlapping). -/
def subAposDigits (l : List Char) : List Char := subAposDigitsAux 0 l

/-- Does `l` start with exactly four digits followed by a word boundary
(end of string or a non-word character)?  This is `\d{4}\b` anchored at
the current position. -/
def fourDigitRunAt : List Char → Bool
  | c1 :: c2 :: c3 :: c4 :: rest =>
    c1.isDigit && c2.isDigit && c3.isDigit && c4.isDigit &&
    (match rest with | [] => true | r :: _ => !isWordChar r)
  | _ => false

/-- Scanner for `re.sub(r'\b\d{4}\b', '', s)`.  The skip counter consumes
the rest of a matched digit run; `prevWord` records whether the character
before the current scan position is a word character (so `\b` holds iff
`!prevWord`). -/
def subFourDigitsAux : Nat → Bool → List Char → List Char
  | _, _, [] => []
  | skip + 1, pw, _ :: t => subFourDigitsAux skip pw t
  | 0, prevWord, c :: t =>
    if !prevWord && fourDigitRunAt (c :: t) then
      subFourDigitsAux 3 true t
    else
      c :: subFourDigitsAux 0 (isWordChar c) t

/-- `re.sub(r'\b\d{4}\b', '', s)`: delete bare four-digit tokens. -/
def subFourDigits (prevWord : Bool) (l : List Char) : List Char :=
  subFourDigitsAux 0 prevWord l

/-- Try to match `term ++ (\s|$)` at the start of `rest`: returns the
emitted group-2 text (the boundary whitespace character, if any) and the
number of characters of `rest` the match consumes. -/
def matchBoundedLen (term rest : List Char) : Option (List Char × Nat) :=
  if term.isPrefixOf rest then
    match rest.drop term.length with
    | [] => some ([], term.length)
    | c :: _ => if pyIsSpace c then some ([c], term.length + 1) else none
  else none

/-- Scanner for `re.sub(r'(^|\s)term(\s|$)', r'\1\2', s)` at positions
past the start of the string: a match needs a whitespace group-1
character, which is re-emitted (`\1`).  After a match the `term`
characters are consumed via the skip counter; when the match ended on a
group-2 whitespace character, `emitNext` re-emits it (`\2`) without
letting it start a new match, so matches are leftmost and non-overlapping
exactly as in Python's `re.sub`. -/
def subBoundedAux (term : List Char) : Nat → Bool → List Char → List Char
  | _, _, [] => []
  | skip + 1, e, _ :: t => subBoundedAux term skip e t
  | 0, true, c :: t => c :: subBoundedAux term 0 false t
  | 0, false, c :: t =>
    if pyIsSpace c then
      match matchBoundedLen term t with
      | some ([], _) => c :: subBoundedAux term term.length false t
      | some (_, _) => c :: subBoundedAux term term.length true t
      | none => c :: subBoundedAux term 0 false t
    else
      c :: subBoundedAux term 0 false t

/-- `re.sub(r'(^|\s)term(\s|$)', r'\1\2', s)`: remove whole-word
occurrences of `term`, keeping the boundary whitespace.  The anchored
`^term(\s|$)` alternative is tried first, then the scanner takes over. -/
def subBoundedList (term l : List Char) : List Char :=
  match matchBoundedLen term l with
  | some ([], _) => subBoundedAux term term.length false l
  | some (_, _) => subBoundedAux term term.length true l
  | none => subBoundedAux term 0 false l

/-! ## `SofaScoreProvider._normalize_team_name` (src/services/sofascore.py:74-113) -/

/-- The prefix list of `_normalize_team_name`, in source order; each is
stripped in turn when the current name starts with it. -/
def normalizePrefixes : List String :=
  ["ca ", "club atlético ", "club atletico ", "atlético ", "atletico ",
   "ac ", "athletic club ", "athletic ", "cf ", "sc ", "fc ", "f.c. ",
   "cd ", "club deportivo ", "club de fútbol ", "club de futbol "]

/-- The suffix-term list of `_normalize_team_name`, in source order; the
source strips each term before building its bounded pattern. -/
def normalizeSuffixes : List String :=
  [" saudi club", " saudi", " fc", " f.c.", " f c",
   " united", " city", " sporting", " club", " cf", " sc",
   " ac", " athletic", " athletic club", " de fútbol", " de futbol",
   " w.f.c.", " wfc", " women", " reserves", " reserve", " u21", " u23", " u13"]

/-- `SofaScoreProvider._normalize_team_name`: lower-case, replace hyphens
and apostrophes with spaces, delete `'\d+` and bare 4-digit tokens, strip
the listed prefixes sequentially, remove each bounded suffix term, and
collapse whitespace. -/
def normalize_team_name (team_name : String) : String :=
  let name := team_name.data.map Char.toLower
  let name := replaceList ['-'] [' '] name
  let name := replaceList [apos] [' '] name
  let name := subAposDigits name
  let name := subFourDigits false name
  let name := normalizePrefixes.foldl
    (fun n p => if p.data.isPrefixOf n then n.drop p.data.length else n) name
  let name := normalizeSuffixes.foldl
    (fun n t => subBoundedList (stripList t.data) n) name
  let name := collapseWsList name
  (stripList name).asString

/-! ## `Sport.extract_teams_from_title` (src/services/sports.py:35-55) -/

/-- The ordered separator preference list of `extract_teams_from_title`. -/
def titleSeparators : List String := [" vs. ", " vs ", " v "]

/-- The known title suffixes stripped before splitting. -/
def titleSuffixes : List String := [" - More Markets", " - Match Winner", " - Moneyline"]

/-- The title-cleaning step of `extract_teams_from_title`.  Faithful to the
source: each suffix that occurs replaces **from the original title**
(`clean_title = title.replace(suffix, '')`), so when several suffixes
occur only the last one's removal survives. -/
def cleanTitleList (title : List Char) : List Char :=
  titleSuffixes.foldl
    (fun clean suf =>
      if listContains suf.data title then replaceList suf.data [] title else clean)
    title

/-- The separator loop of `extract_teams_from_title`: membership is tested
on the lower-cased title, but the split runs case-sensitively on the
original-case (suffix-stripped) title; when the split does not produce two
parts the next separator is tried. -/
def extractTeamsAux (title title_lower : List Char) :
    List String → Option String × Option String
  | [] => (none, none)
  | sep :: rest =>
    if listContains sep.data title_lower then
      match splitOnceList sep.data (cleanTitleList title) with
      | some (a, b) => (some (stripList a).asString, some (stripList b).asString)
      | none => extractTeamsAux title title_lower rest
    else
      extractTeamsAux title title_lower rest

/-- `Sport.extract_teams_from_title` (shared base-class implementation). -/
def extract_teams_from_title (title : String) : Option String × Option String :=
  extractTeamsAux title.data (title.data.map Char.toLower) titleSeparators

/-! ## Data models (src/models.py) -/

/-- `PriceData`: price and spread for a betting outcome (floats modelled
as rationals; both default to absent). -/
structure PriceData where
  price : Option ℚ := none
  spread : Option ℚ := none
deriving DecidableEq, Repr

/-- `MoneylineOutcome`: single outcome in a moneyline market. -/
structure MoneylineOutcome where
  name : String
  token_id : String
  price_data : PriceData
deriving DecidableEq, Repr

/-- `Moneyline`: complete moneyline with all outcomes. -/
structure Moneyline where
  outcomes : List MoneylineOutcome
  has_draw : Bool
deriving DecidableEq, Repr

/-- A sub-market of a market event: the fields of the Python market dict
that `extract_moneyline` reads, with `outcomes` and `clobTokenIds` already
decoded from JSON (`parse_json_field`). -/
structure SubMarket where
  question : String
  outcomes : List String
  clobTokenIds : List String
deriving DecidableEq, Repr

/-- `GameMomentum`: the statistics fields read by
`_calculate_momentum_direction` (the graph/commentary fields of the
Python dataclass are filled by network code outside this model). -/
structure GameMomentum where
  possession_home : Option Int := none
  possession_away : Option Int := none
  attacks_home : Option Int := none
  attacks_away : Option Int := none
  dangerous_attacks_home : Option Int := none
  dangerous_attacks_away : Option Int := none
deriving DecidableEq, Repr

/-- `LiveGameData`: live game score and time data. -/
structure LiveGameData where
  home_team : String
  away_team : String
  home_score : Int
  away_score : Int
  event_id : Int
  current_minute : Option Int := none
  status : Option String := none
  momentum : Option GameMomentum := none
deriving DecidableEq, Repr

/-! ## `MarketExtractor` (src/services/polymarket.py:190-264) -/

/-- The date scanner of `clean_team_name`: does the list start with
`\d{4}-\d{2}-\d{2}`? -/
def datePatAt : List Char → Bool
  | d1 :: d2 :: d3 :: d4 :: h1 :: m1 :: m2 :: h2 :: e1 :: e2 :: _ =>
    d1.isDigit && d2.isDigit && d3.isDigit && d4.isDigit && h1 = '-' &&
    m1.isDigit && m2.isDigit && h2 = '-' && e1.isDigit && e2.isDigit
  | _ => false

/-- Scanner for `re.sub(r'\s*\d{4}-\d{2}-\d{2}\s*', '', s)`: at a match
the whole matched span (leading whitespace run, the 10 date characters,
and the greedy trailing whitespace run) is consumed via the skip
counter. -/
def subDateAux : Nat → List Char → List Char
  | _, [] => []
  | skip + 1, _ :: t => subDateAux skip t
  | 0, c :: t =>
    if datePatAt ((c :: t).drop (countWhile pyIsSpace (c :: t))) then
      subDateAux
        (countWhile pyIsSpace (c :: t) + 10 +
          countWhile pyIsSpace (((c :: t).drop (countWhile pyIsSpace (c :: t))).drop 10) - 1)
        t
    else
      c :: subDateAux 0 t

/-- `re.sub(r'\s*\d{4}-\d{2}-\d{2}\s*', '', s)`: delete ISO-date
substrings together with surrounding whitespace (leftmost,
non-overlapping, greedy whitespace). -/
def subDateList (l : List Char) : List Char := subDateAux 0 l

/-- `MarketExtractor.clean_team_name`: strip the boilerplate phrases
`"Will "`, `" win on"`, `"?"` and any embedded ISO date from a question. -/
def clean_team_name (question : String) : String :=
  let name := replaceList "Will ".data [] question.data
  let name := replaceList " win on".data [] name
  let name := replaceList "?".data [] name
  let name := stripList name
  let name := subDateList name
  (stripList name).asString

/-- The loop state of `extract_moneyline`: the team-win outcomes in
encounter order and the (last seen) draw outcome. -/
structure ExtractState where
  team_markets : List MoneylineOutcome
  draw_market : Option MoneylineOutcome
deriving DecidableEq, Repr

/-- One iteration of the `extract_moneyline` market loop.  A sub-market is
skipped unless it has exactly 2 outcomes and at least one settlement
token; the first token is the yes-token.  For a draw-eligible sport a
question containing `"draw"` becomes the draw outcome (overwriting any
earlier one), otherwise a question containing `"win"` is appended as a
team-win outcome. -/
def extract_moneyline_step (has_draw : Bool) (price_data_map : String → Option PriceData)
    (st : ExtractState) (market : SubMarket) : ExtractState :=
  let question := lowerStr market.question
  if market.outcomes.length != 2 || market.clobTokenIds.isEmpty then st
  else
    match market.clobTokenIds with
    | [] => st
    | yes_token :: _ =>
      if has_draw && strContains question "draw" then
        let d : MoneylineOutcome := ⟨"Draw", yes_token, (price_data_map yes_token).getD {}⟩
        { st with draw_market := some d }
      else if strContains question "win" then
        let t : MoneylineOutcome :=
          ⟨clean_team_name market.question, yes_token, (price_data_map yes_token).getD {}⟩
        { st with team_markets := st.team_markets ++ [t] }
      else st

/-- `MarketExtractor.extract_moneyline`: build the moneyline when the
exact expected cardinality (2 team outcomes, plus a draw outcome for
draw-eligible sports) is reached, otherwise return `none`. -/
def extract_moneyline (markets : List SubMarket)
    (price_data_map : String → Option PriceData) (has_draw : Bool) : Option Moneyline :=
  let st := markets.foldl (extract_moneyline_step has_draw price_data_map) ⟨[], none⟩
  if has_draw then
    match st.team_markets, st.draw_market with
    | [t1, t2], some d => some ⟨[t1, d, t2], true⟩
    | _, _ => none
  else
    match st.team_markets with
    | [t1, t2] => some ⟨[t1, t2], false⟩
    | _ => none

/-! ## `SofaScoreProvider._calculate_game_minute` (src/services/sofascore.py:157-176) -/

/-- `SofaScoreProvider._calculate_game_minute`.  `now` and the optional
`currentPeriodStartTimestamp` are integer epoch seconds; `int(x / 60)` is
truncation toward zero (`Int.tdiv`).  Python's `if not period_start`
treats a `0` timestamp like a missing one. -/
def calculate_game_minute (now : Int) (period_start : Option Int)
    (status_description : String) : Option Int :=
  match period_start with
  | none => none
  | some ps =>
    if ps = 0 then none
    else
      let elapsed_minutes : Int := (now - ps).tdiv 60
      let status_lower := lowerStr status_description
      if strContains status_lower "1st" || strContains status_lower "first" then
        some (min elapsed_minutes 45)
      else if strContains status_lower "2nd" || strContains status_lower "second" then
        some (45 + min elapsed_minutes 45)
      else if strContains status_lower "halftime" then
        none
      else
        if elapsed_minutes ≥ 0 then some elapsed_minutes else none

/-! ## `SofaScoreProvider._calculate_momentum_direction`
(src/services/sofascore.py:360-395) -/

/-- The weighted-vote accumulation of `_calculate_momentum_direction`:
(home score, away score, number of contributing factors).  The Python
float weights `1`, `1.5`, `2` are the exact rationals used here. -/
def momentum_scores (m : GameMomentum) : ℚ × ℚ × Nat :=
  let s : ℚ × ℚ × Nat := (0, 0, 0)
  let s :=
    match m.possession_home, m.possession_away with
    | some ph, some pa =>
      if ph > pa + 10 then (s.1 + 1, s.2.1, s.2.2 + 1)
      else if pa > ph + 10 then (s.1, s.2.1 + 1, s.2.2 + 1)
      else (s.1, s.2.1, s.2.2 + 1)
    | _, _ => s
  let s :=
    match m.attacks_home, m.attacks_away with
    | some ah, some aa =>
      if ah > aa then (s.1 + 3/2, s.2.1, s.2.2 + 1)
      else if aa > ah then (s.1, s.2.1 + 3/2, s.2.2 + 1)
      else (s.1, s.2.1, s.2.2 + 1)
    | _, _ => s
  let s :=
    match m.dangerous_attacks_home, m.dangerous_attacks_away with
    | some dh, some da =>
      if dh > da then (s.1 + 2, s.2.1, s.2.2 + 1)
      else if da > dh then (s.1, s.2.1 + 2, s.2.2 + 1)
      else (s.1, s.2.1, s.2.2 + 1)
    | _, _ => s
  s

/-- `SofaScoreProvider._calculate_momentum_direction`: the side whose
weighted total beats the other by a 20% margin wins, else `"neutral"`
(the Python float literal `1.2` is the exact rational `6/5`). -/
def calculate_momentum_direction (m : GameMomentum) : String :=
  let s := momentum_scores m
  let home_score := s.1
  let away_score := s.2.1
  let total_factors := s.2.2
  if total_factors = 0 then "neutral"
  else if home_score > away_score * (6/5) then "home"
  else if away_score > home_score * (6/5) then "away"
  else "neutral"

/-! ## `LiveSportsTracker` (src/services/tracker.py) -/

/-- The sport-strategy data read by `process_event` /
`get_all_live_games`: `get_name()` and `has_draw_option()`.  Team
extraction uses the shared base-class `extract_teams_from_title`;
`is_sport_event` / `is_live_event` only shape the event list fetched by
`get_live_events`, which is modelled as an oracle below. -/
structure SportM where
  name : String
  has_draw : Bool
deriving DecidableEq, Repr

/-- A market event: the fields of the Polymarket event dict read by
`process_event`. -/
structure MarketEvent where
  id : String
  slug : String
  title : String
  startTime : String
  markets : List SubMarket
deriving DecidableEq, Repr

/-- `LiveGameResponse` (src/models.py). -/
structure LiveGameResponse where
  event_id : String
  event_slug : String
  title : String
  polymarket_url : String
  start_time : String
  home_team : String
  away_team : String
  live_data : Option LiveGameData
  moneyline : Moneyline
  sport : String
deriving DecidableEq, Repr

/-- `Config.POLYMARKET_EVENT_URL` (src/config.py). -/
def POLYMARKET_EVENT_URL : String := "https://polymarket.com/event"

/-- The terminal life-cycle terms tested in `process_event`
(src/services/tracker.py:104). -/
def terminal_status_terms : List String :=
  ["finished", "ended", "full time", "after extra time", "after penalties"]

/-- Oracle modelling `SofaScoreProvider.get_live_game_data`: for a
home/away pair it returns the matched live fixture (`some`), no match
(`none`), or a raised exception (`Except.error`, e.g. an upstream
fixture-list fetch failure). -/
abbrev ScoreProviderFn := String → String → Except String (Option LiveGameData)

/-- `LiveSportsTracker.process_event`.  `score_provider` is the optional
provider (as in the source, where `self.score_provider` may be `None`);
`price_oracle` models `PolymarketAPIClient.get_price_data` per token, so
`get_bulk_price_data` is the map built from `all_token_ids`. -/
def process_event (score_provider : Option ScoreProviderFn)
    (price_oracle : String → PriceData) (sport : SportM) (event : MarketEvent) :
    Option LiveGameResponse :=
  match extract_teams_from_title event.title with
  | (some home_team, some away_team) =>
    if home_team = "" || away_team = "" then none
    else
      let live_data_result : Except String (Option LiveGameData) :=
        match score_provider with
        | some provider => provider home_team away_team
        | none => .ok none
      match live_data_result with
      | .error _ => none
      | .ok none => none
      | .ok (some live_data) =>
        let finished : Bool :=
          match live_data.status with
          | some status =>
            let status_lower := lowerStr status
            terminal_status_terms.any (fun term => strContains status_lower term)
          | none => false
        if finished then none
        else if event.markets.isEmpty then none
        else
          let all_token_ids :=
            event.markets.foldl (fun acc m => acc ++ m.clobTokenIds) []
          if all_token_ids.isEmpty then none
          else
            let price_data_map : String → Option PriceData :=
              fun tok => if all_token_ids.contains tok then some (price_oracle tok) else none
            match extract_moneyline event.markets price_data_map sport.has_draw with
            | none => none
            | some moneyline =>
              let polymarket_url :=
                if event.slug = "" && event.id ≠ "" then
                  POLYMARKET_EVENT_URL ++ "/" ++ event.id
                else POLYMARKET_EVENT_URL ++ "/" ++ event.slug
              some { event_id := event.id, event_slug := event.slug,
                     title := event.title, polymarket_url,
                     start_time := event.startTime, home_team, away_team,
                     live_data := some live_data, moneyline, sport := sport.name }
  | _ => none

/-- The per-sport games list built by the event loop of
`get_all_live_games` (append each event whose `process_event` result is
present). -/
def live_games_for (score_provider : Option ScoreProviderFn)
    (price_oracle : String → PriceData) (sport : SportM)
    (events : List MarketEvent) : List LiveGameResponse :=
  events.filterMap (process_event score_provider price_oracle sport)

/-- Per-sport summary stored under `result['sports'][sport_name]`. -/
structure SportEntry where
  total_found : Nat
  total_live : Nat
  games : List LiveGameResponse
deriving DecidableEq, Repr

/-- The full `get_all_live_games` result; the sports dict is an insertion
-ordered association list (Python dict semantics). -/
structure AllLiveGames where
  timestamp : String
  sports : List (String × SportEntry)
  total_games : Nat
deriving DecidableEq, Repr

/-- Python dict assignment `d[k] = v`: replace in place or append. -/
def dict_insert (k : String) (v : SportEntry) :
    List (String × SportEntry) → List (String × SportEntry)
  | [] => [(k, v)]
  | (k', v') :: t => if k' = k then (k, v) :: t else (k', v') :: dict_insert k v t

/-- The sport loop of `get_all_live_games`, carrying the sports dict and
the running `total_games`. -/
def collect_loop (score_provider : Option ScoreProviderFn)
    (price_oracle : String → PriceData)
    (live_events_oracle : SportM → List MarketEvent) :
    List SportM → List (String × SportEntry) → Nat →
      List (String × SportEntry) × Nat
  | [], dict, total => (dict, total)
  | sport :: rest, dict, total =>
    let live_events := live_events_oracle sport
    let games := live_games_for score_provider price_oracle sport live_events
    let entry : SportEntry := ⟨live_events.length, games.length, games⟩
    collect_loop score_provider price_oracle live_events_oracle rest
      (dict_insert sport.name entry dict) (total + games.length)

/-- `LiveSportsTracker.get_all_live_games`.  `live_events_oracle` models
`get_live_events` (Polymarket fetch plus sport/liveness filtering);
`timestamp` is the cycle's clock reading.  The trailing unmatched-games
block of the source only logs and never touches the result. -/
def get_all_live_games (sports : List SportM)
    (score_provider : Option ScoreProviderFn)
    (price_oracle : String → PriceData)
    (live_events_oracle : SportM → List MarketEvent)
    (timestamp : String) : AllLiveGames :=
  let r := collect_loop score_provider price_oracle live_events_oracle sports [] 0
  ⟨timestamp, r.1, r.2⟩

/-! ## Claim theorems -/

set_option maxRecDepth 8000 in
/-- **C6** (counterexample): name normalization is not idempotent.
`normalize_team_name "cf ca milan" = "ca milan"` (the `"cf "` prefix is
stripped), but normalizing `"ca milan"` again strips the newly exposed
leading `"ca "` prefix, yielding `"milan"`. -/
theorem c6_counterexample :
    normalize_team_name (normalize_team_name "cf ca milan") ≠
      normalize_team_name "cf ca milan" := by decide

set_option maxRecDepth 8000 in
/-- **C6** (amended): name normalization is not idempotent in general — a
first pass can expose a new leading club-type prefix
(`"cf ca milan" → "ca milan" → "milan"`) or leave a newly bounded club
word, because whole-word suffix removal is non-overlapping
(`"x fc fc" → "x fc" → "x"`); a second application strips further. -/
theorem c6_amended :
    normalize_team_name "cf ca milan" = "ca milan" ∧
    normalize_team_name "ca milan" = "milan" ∧
    normalize_team_name "x fc fc" = "x fc" ∧
    normalize_team_name "x fc" = "x" := by decide

/-- **C7**: `extract_moneyline` returns absent (a) for a draw-eligible
sub-market list containing a 2-outcome draw market but fewer than two
"win"-bearing team markets, and (b) when every sub-market has 3 outcomes
— even when the questions contain "win"/"draw" — since 3-outcome
sub-markets are ineligible and contribute no outcome. -/
theorem c7_extract_moneyline_absent :
    extract_moneyline
      [⟨"Match ends in a draw?", ["Yes", "No"], ["t1"]⟩,
       ⟨"Will B win?", ["Yes", "No"], ["t2"]⟩]
      (fun _ => none) true = none ∧
    extract_moneyline
      [⟨"Will A win?", ["A", "Draw", "B"], ["t1"]⟩,
       ⟨"Will B win or draw?", ["A", "Draw", "B"], ["t2"]⟩]
      (fun _ => none) true = none ∧
    extract_moneyline
      [⟨"Will A win?", ["A", "Draw", "B"], ["t1"]⟩,
       ⟨"Will B win or draw?", ["A", "Draw", "B"], ["t2"]⟩]
      (fun _ => none) false = none := by decide

/-- **C8**: for possession 60/40, attacks 20 vs 10, and absent
dangerous-attack data, the weighted vote gives home 1 + 1.5 = 2.5 versus
away 0 over 2 factors, and the direction is `"home"`. -/
theorem c8_momentum_direction_home :
    momentum_scores ⟨some 60, some 40, some 20, some 10, none, none⟩ = (5/2, 0, 2) ∧
    calculate_momentum_direction ⟨some 60, some 40, some 20, some 10, none, none⟩ =
      "home" := by
  have hs : momentum_scores ⟨some 60, some 40, some 20, some 10, none, none⟩ =
      (5/2, 0, 2) := by
    simp only [momentum_scores]
    norm_num
  refine ⟨hs, ?_⟩
  simp only [calculate_momentum_direction, hs]
  norm_num

/-- **C4** (counterexample): the elapsed-minute estimate is *not* clamped
to `[0, 45]` from below.  With a period start 60 seconds in the future
(`now = 40`, start `100`) and a first-half phase label, the code returns
minute `-1`, a negative value. -/
theorem c4_counterexample :
    calculate_game_minute 40 (some 100) "1st half" = some (-1) ∧
    (-1 : Int) < 0 := by decide

/-- **C4** (amended): the per-period elapsed component
`(now − start) / 60` is clamped only from above at 45; provided the
period start is present, non-zero and not in the future, first-half
phases return a minute in `[0, 45]`, second-half phases add 45 (giving
`[45, 90]`), halftime returns absent, and a missing period-start
timestamp returns absent. -/
theorem c4_amended (now ps : Int) (status : String)
    (hps : ps ≠ 0) (hle : ps ≤ now) :
    ((strContains (lowerStr status) "1st" || strContains (lowerStr status) "first") = true →
      calculate_game_minute now (some ps) status =
        some (min ((now - ps).tdiv 60) 45) ∧
      ∀ v, calculate_game_minute now (some ps) status = some v → 0 ≤ v ∧ v ≤ 45) ∧
    ((strContains (lowerStr status) "1st" || strContains (lowerStr status) "first") = false →
     (strContains (lowerStr status) "2nd" || strContains (lowerStr status) "second") = true →
      calculate_game_minute now (some ps) status =
        some (45 + min ((now - ps).tdiv 60) 45) ∧
      ∀ v, calculate_game_minute now (some ps) status = some v → 45 ≤ v ∧ v ≤ 90) ∧
    ((strContains (lowerStr status) "1st" || strContains (lowerStr status) "first") = false →
     (strContains (lowerStr status) "2nd" || strContains (lowerStr status) "second") = false →
     strContains (lowerStr status) "halftime" = true →
      calculate_game_minute now (some ps) status = none) ∧
    calculate_game_minute now none status = none := by
  have htd : 0 ≤ (now - ps).tdiv 60 := Int.tdiv_nonneg (by omega) (by omega)
  have hmin1 : 0 ≤ min ((now - ps).tdiv 60) 45 := le_min htd (by norm_num)
  have hmin2 : min ((now - ps).tdiv 60) 45 ≤ 45 := min_le_right _ _
  refine ⟨?_, ?_, ?_, rfl⟩
  · intro h1
    have key : calculate_game_minute now (some ps) status =
        some (min ((now - ps).tdiv 60) 45) := by
      simp only [calculate_game_minute, hps, h1]
      simp
    refine ⟨key, ?_⟩
    intro v hv
    rw [key, Option.some.injEq] at hv
    omega
  · intro h1 h2
    have key : calculate_game_minute now (some ps) status =
        some (45 + min ((now - ps).tdiv 60) 45) := by
      simp only [calculate_game_minute, hps, h1, h2]
      simp
    refine ⟨key, ?_⟩
    intro v hv
    rw [key, Option.some.injEq] at hv
    omega
  · intro h1 h2 h3
    simp only [calculate_game_minute, hps, h1, h2, h3]
    simp

/-- **C4** (witness): at `now = 4000`, period start `100`, phase
`"1st half"` the amended theorem applies and gives minute 45. -/
theorem c4_amended_witness :
    calculate_game_minute 4000 (some 100) "1st half" = some 45 := by
  have h := c4_amended 4000 100 "1st half" (by decide) (by decide)
  have h1 := (h.1 (by decide)).1
  simpa using h1

/-- **C3** (counterexample): the separator `" vs "` does occur
case-insensitively in `"Team A VS Team B"`, yet team extraction returns
the absent pair, because the split runs case-sensitively on the
original-case title. -/
theorem c3_counterexample :
    strContains (lowerStr "Team A VS Team B") " vs " = true ∧
    extract_teams_from_title "Team A VS Team B" = (none, none) := by decide

/-- Helper: the separator loop returns the absent pair when no separator
occurs in the lower-cased title. -/
theorem extractTeamsAux_all_absent (title tl : List Char) (seps : List String)
    (h : ∀ sep ∈ seps, listContains sep.data tl = false) :
    extractTeamsAux title tl seps = (none, none) := by
  induction seps with
  | nil => rfl
  | cons s rest ih =>
    have hs := h s (by simp)
    simp only [extractTeamsAux, hs, Bool.false_eq_true, if_false]
    exact ih fun sep hsep => h sep (by simp [hsep])

/-- **C3** (amended): team extraction tries the ordered separator list
with a case-insensitive membership test, but splits the suffix-stripped
title case-sensitively on the separator's literal occurrence; a title
whose separator appears only in another case (e.g. `"Team A VS Team B"`)
yields the absent pair, titles with a literal separator split into the
two trimmed team names, and a title with no separator (case-insensitively)
yields the absent pair. -/
theorem c3_amended :
    (∀ title : String,
      (∀ sep ∈ titleSeparators, strContains (lowerStr title) sep = false) →
      extract_teams_from_title title = (none, none)) ∧
    extract_teams_from_title "Team A VS Team B" = (none, none) ∧
    extract_teams_from_title "Team A vs Team B" = (some "Team A", some "Team B") ∧
    extract_teams_from_title "Real Madrid vs. Barcelona - More Markets" =
      (some "Real Madrid", some "Barcelona") := by
  refine ⟨?_, by decide, by decide, by decide⟩
  intro title h
  exact extractTeamsAux_all_absent _ _ _ h

/-- **C3** (witness): a title with no separator at all yields the absent
pair via the amended theorem. -/
theorem c3_amended_witness :
    extract_teams_from_title "plain title" = (none, none) :=
  c3_amended.1 "plain title" (by decide)

/-- **C2**: whenever `extract_moneyline` returns a moneyline, the
moneyline has the has-draw flag of the sport and exactly 3 outcomes
ordered [first team-win outcome, draw outcome, second team-win outcome]
for draw-eligible sports, or exactly 2 team-win outcomes (in encounter
order) otherwise; no other outcome count is ever returned. -/
theorem c2_moneyline_cardinality (markets : List SubMarket)
    (pm : String → Option PriceData) (has_draw : Bool) (ml : Moneyline)
    (h : extract_moneyline markets pm has_draw = some ml) :
    ml.has_draw = has_draw ∧
    ml.outcomes.length = (if has_draw then 3 else 2) ∧
    (has_draw = true →
      ∃ t1 t2 d,
        (markets.foldl (extract_moneyline_step has_draw pm) ⟨[], none⟩).team_markets
          = [t1, t2] ∧
        (markets.foldl (extract_moneyline_step has_draw pm) ⟨[], none⟩).draw_market
          = some d ∧
        ml.outcomes = [t1, d, t2]) ∧
    (has_draw = false →
      ∃ t1 t2,
        (markets.foldl (extract_moneyline_step has_draw pm) ⟨[], none⟩).team_markets
          = [t1, t2] ∧
        ml.outcomes = [t1, t2]) := by
  simp only [extract_moneyline] at h
  cases has_draw with
  | false =>
    simp only [Bool.false_eq_true, if_false] at h ⊢
    split at h
    case _ t1 t2 heq =>
      simp only [Option.some.injEq] at h
      subst h
      exact ⟨rfl, rfl, by simp, fun _ => ⟨t1, t2, heq, rfl⟩⟩
    case _ => exact absurd h (by simp)
  | true =>
    simp only [if_true] at h ⊢
    split at h
    case _ t1 t2 d heq1 heq2 =>
      simp only [Option.some.injEq] at h
      subst h
      exact ⟨rfl, rfl, fun _ => ⟨t1, t2, d, heq1, heq2, rfl⟩, by simp⟩
    case _ => exact absurd h (by simp)

/-- **C2** (witness): a two-market no-draw event extracts a 2-outcome
moneyline, and the cardinality theorem applies to it. -/
theorem c2_moneyline_cardinality_witness :
    (Moneyline.mk [⟨"A win", "t1", {}⟩, ⟨"B win", "t2", {}⟩] false).outcomes.length =
      (if false then 3 else 2) :=
  (c2_moneyline_cardinality
    [⟨"Will A win?", ["Yes", "No"], ["t1"]⟩, ⟨"Will B win?", ["Yes", "No"], ["t2"]⟩]
    (fun _ => none) false ⟨[⟨"A win", "t1", {}⟩, ⟨"B win", "t2", {}⟩], false⟩
    (by decide)).2.1

/-- **C9**: in the `extract_moneyline` market loop the draw-keyword test
takes precedence over the win-keyword test: for a draw-eligible sport an
eligible sub-market whose question contains both "draw" and "win" becomes
the draw outcome and does not extend the team-win list, while for a
non-draw sport the "draw" keyword is ignored and the same sub-market is
appended as a team-win outcome. -/
theorem c9_draw_precedence (pm : String → Option PriceData) (st : ExtractState)
    (m : SubMarket) (yes : String) (restIds : List String)
    (h2 : m.outcomes.length = 2)
    (hids : m.clobTokenIds = yes :: restIds)
    (hdraw : strContains (lowerStr m.question) "draw" = true)
    (hwin : strContains (lowerStr m.question) "win" = true) :
    (extract_moneyline_step true pm st m).team_markets = st.team_markets ∧
    (extract_moneyline_step true pm st m).draw_market =
      some ⟨"Draw", yes, (pm yes).getD {}⟩ ∧
    (extract_moneyline_step false pm st m).team_markets =
      st.team_markets ++ [⟨clean_team_name m.question, yes, (pm yes).getD {}⟩] ∧
    (extract_moneyline_step false pm st m).draw_market = st.draw_market := by
  simp only [extract_moneyline_step, h2, hids, hdraw, hwin]
  simp

/-- **C9** (witness): a 2-outcome sub-market asking "Will X win or draw?"
is classified as the draw outcome under draw-eligibility. -/
theorem c9_draw_precedence_witness :
    (extract_moneyline_step true (fun _ => none) ⟨[], none⟩
      ⟨"Will X win or draw?", ["Yes", "No"], ["tk"]⟩).draw_market =
      some ⟨"Draw", "tk", {}⟩ :=
  (c9_draw_precedence (fun _ => none) ⟨[], none⟩
    ⟨"Will X win or draw?", ["Yes", "No"], ["tk"]⟩ "tk" []
    rfl rfl (by decide) (by decide)).2.1

/-- **C1**: if the fixture matched to an event has a life-cycle phase
containing a terminal term (case-insensitively), `process_event` returns
absent, and the per-sport games list of a cycle splits around that event
— it contributes nothing to the output. -/
theorem c1_terminal_fixture_never_output
    (f : ScoreProviderFn) (po : String → PriceData) (sport : SportM)
    (ev : MarketEvent) (home away : String) (ld : LiveGameData)
    (status term : String)
    (hex : extract_teams_from_title ev.title = (some home, some away))
    (hf : f home away = Except.ok (some ld))
    (hst : ld.status = some status)
    (hterm : term ∈ terminal_status_terms)
    (hsub : strContains (lowerStr status) term = true) :
    process_event (some f) po sport ev = none ∧
    ∀ before after : List MarketEvent,
      live_games_for (some f) po sport (before ++ ev :: after) =
        live_games_for (some f) po sport before ++
          live_games_for (some f) po sport after := by
  have hany : terminal_status_terms.any
      (fun t => strContains (lowerStr status) t) = true :=
    List.any_eq_true.mpr ⟨term, hterm, hsub⟩
  have h1 : process_event (some f) po sport ev = none := by
    simp only [process_event, hex]
    by_cases hempty : (home = "" || away = "") = true
    · simp [hempty]
    · simp only [Bool.not_eq_true] at hempty
      simp only [hempty, Bool.false_eq_true, if_false, hf, hst, hany, if_true]
  refine ⟨h1, fun before after => ?_⟩
  simp [live_games_for, List.filterMap_append, List.filterMap_cons, h1]

/-- **C1** (witness): an event whose matched fixture reports status
`"Finished"` is dropped by `process_event`. -/
theorem c1_witness :
    process_event
      (some fun _ _ => Except.ok (some ⟨"H", "A", 0, 0, 1, none, some "Finished", none⟩))
      (fun _ => {}) ⟨"Soccer", true⟩ ⟨"1", "s", "A vs B", "", []⟩ = none :=
  (c1_terminal_fixture_never_output
    (fun _ _ => Except.ok (some ⟨"H", "A", 0, 0, 1, none, some "Finished", none⟩))
    (fun _ => {}) ⟨"Soccer", true⟩ ⟨"1", "s", "A vs B", "", []⟩
    "A" "B" ⟨"H", "A", 0, 0, 1, none, some "Finished", none⟩ "Finished" "finished"
    (by decide) rfl rfl (by decide) (by decide)).1

/-- Helper: the sport loop of `get_all_live_games` processes an appended
sports list by running the first part and continuing with its state. -/
theorem collect_loop_append (sp : Option ScoreProviderFn)
    (po : String → PriceData) (leo : SportM → List MarketEvent)
    (s1 s2 : List SportM) (dict : List (String × SportEntry)) (total : Nat) :
    collect_loop sp po leo (s1 ++ s2) dict total =
      collect_loop sp po leo s2 (collect_loop sp po leo s1 dict total).1
        (collect_loop sp po leo s1 dict total).2 := by
  induction s1 generalizing dict total with
  | nil => simp [collect_loop]
  | cons s rest ih =>
    simp only [List.cons_append, collect_loop]
    exact ih _ _

/-- **C5**: a score-provider failure (raised `UpstreamError`, modelled as
`Except.error`) while processing one event makes `process_event` return
absent for that event only: the per-sport games list splits around the
failed event, and the sport loop still runs every sport of the cycle in
sequence — the failure never aborts the whole cycle. -/
theorem c5_provider_error_skips_event
    (f : ScoreProviderFn) (po : String → PriceData) (sport : SportM)
    (ev : MarketEvent) (home away msg : String)
    (hex : extract_teams_from_title ev.title = (some home, some away))
    (herr : f home away = Except.error msg) :
    process_event (some f) po sport ev = none ∧
    (∀ before after : List MarketEvent,
      live_games_for (some f) po sport (before ++ ev :: after) =
        live_games_for (some f) po sport before ++
          live_games_for (some f) po sport after) ∧
    (∀ (sports1 sports2 : List SportM) (leo : SportM → List MarketEvent)
       (dict : List (String × SportEntry)) (total : Nat),
      collect_loop (some f) po leo (sports1 ++ sports2) dict total =
        collect_loop (some f) po leo sports2
          (collect_loop (some f) po leo sports1 dict total).1
          (collect_loop (some f) po leo sports1 dict total).2) := by
  have h1 : process_event (some f) po sport ev = none := by
    simp only [process_event, hex]
    by_cases hempty : (home = "" || away = "") = true
    · simp [hempty]
    · simp only [Bool.not_eq_true] at hempty
      simp only [hempty, Bool.false_eq_true, if_false, herr]
  refine ⟨h1, fun before after => ?_, fun s1 s2 leo dict total => ?_⟩
  · simp [live_games_for, List.filterMap_append, List.filterMap_cons, h1]
  · exact collect_loop_append (some f) po leo s1 s2 dict total

/-- **C5** (witness): an event whose provider lookup raises is skipped. -/
theorem c5_witness :
    process_event (some fun _ _ => Except.error "boom") (fun _ => {})
      ⟨"Soccer", true⟩ ⟨"1", "s", "A vs B", "", []⟩ = none :=
  (c5_provider_error_skips_event (fun _ _ => Except.error "boom") (fun _ => {})
    ⟨"Soccer", true⟩ ⟨"1", "s", "A vs B", "", []⟩ "A" "B" "boom"
    (by decide) rfl).1

/-- Helper: inserting a fresh key into the sports dict appends it. -/
theorem dict_insert_fresh (k : String) (v : SportEntry)
    (l : List (String × SportEntry)) (h : k ∉ l.map Prod.fst) :
    dict_insert k v l = l ++ [(k, v)] := by
  induction l with
  | nil => rfl
  | cons p t ih =>
    obtain ⟨k', v'⟩ := p
    simp only [List.map_cons, List.mem_cons, not_or] at h
    obtain ⟨h1, h2⟩ := h
    simp only [dict_insert]
    rw [if_neg fun e => h1 e.symm]
    rw [ih h2]
    simp

/-- Helper: closed form of the sport loop for fresh, duplicate-free sport
names: the dict gains one entry per sport in order and `total_games`
accumulates each sport's games-list length. -/
theorem collect_loop_eq (sp : Option ScoreProviderFn) (po : String → PriceData)
    (leo : SportM → List MarketEvent) (sports : List SportM)
    (dict : List (String × SportEntry)) (total : Nat)
    (hfresh : ∀ s ∈ sports, s.name ∉ dict.map Prod.fst)
    (hnodup : (sports.map SportM.name).Nodup) :
    collect_loop sp po leo sports dict total =
      (dict ++ sports.map (fun s =>
        (s.name, ⟨(leo s).length, (live_games_for sp po s (leo s)).length,
                  live_games_for sp po s (leo s)⟩)),
       total + (sports.map (fun s => (live_games_for sp po s (leo s)).length)).sum) := by
  induction sports generalizing dict total with
  | nil => simp [collect_loop]
  | cons s rest ih =>
    simp only [List.map_cons, List.nodup_cons] at hnodup
    obtain ⟨hname, hnodup2⟩ := hnodup
    simp only [collect_loop]
    rw [dict_insert_fresh s.name _ dict (hfresh s (List.mem_cons_self s rest))]
    rw [ih _ _ ?_ hnodup2]
    · simp [List.append_assoc, Nat.add_assoc]
    · intro s2 hs2
      have hd := hfresh s2 (List.mem_cons_of_mem s hs2)
      have hne : s2.name ≠ s.name := by
        intro e
        exact hname (e ▸ List.mem_map_of_mem SportM.name hs2)
      simp [hd, hne]

/-- **C10**: in every cycle whose configured sports have pairwise-distinct
names (as the application configures them), the output of
`get_all_live_games` satisfies: `total_games` is the sum of the per-sport
`total_live` values, each sport's `total_live` is the length of its games
list, and `total_live` never exceeds `total_found`. -/
theorem c10_output_totals (sports : List SportM) (sp : Option ScoreProviderFn)
    (po : String → PriceData) (leo : SportM → List MarketEvent) (ts : String)
    (hnodup : (sports.map SportM.name).Nodup) :
    (get_all_live_games sports sp po leo ts).total_games =
      (((get_all_live_games sports sp po leo ts).sports).map
        (fun e => e.2.total_live)).sum ∧
    ∀ e ∈ (get_all_live_games sports sp po leo ts).sports,
      e.2.total_live = e.2.games.length ∧ e.2.total_live ≤ e.2.total_found := by
  have key := collect_loop_eq sp po leo sports [] 0 (by simp) hnodup
  constructor
  · simp only [get_all_live_games, key]
    simp only [List.nil_append, List.map_map, Nat.zero_add]
    rfl
  · intro e he
    simp only [get_all_live_games, key, List.nil_append] at he
    obtain ⟨s, hs, rfl⟩ := List.mem_map.mp he
    refine ⟨rfl, ?_⟩
    simpa [live_games_for] using
      List.length_filterMap_le (process_event sp po s) (leo s)

/-- **C10** (witness): a one-sport cycle with no live events satisfies the
totals invariant. -/
theorem c10_output_totals_witness :
    (get_all_live_games [⟨"Soccer", true⟩] none (fun _ => {}) (fun _ => []) "t").total_games =
      (((get_all_live_games [⟨"Soccer", true⟩] none (fun _ => {}) (fun _ => []) "t").sports).map
        (fun e => e.2.total_live)).sum :=
  (c10_output_totals [⟨"Soccer", true⟩] none (fun _ => {}) (fun _ => []) "t"
    (by simp)).1

end Tradai
